import Mathlib

/-!
Shallow embedding of the discv5 core (emhane/discv5) used to check the
specification claims against the source.

Conventions used throughout:
* `tokio::time::Instant` and `Duration` are modelled as `Nat` time units;
  `Instant::elapsed` and all the saturating `Duration` arithmetic of the
  source become truncated `Nat` subtraction, which has the same saturating
  behaviour.
* Hash maps are modelled either as association lists (when the claims need
  to sum over the entries) or as functions into `Option` (when only lookup,
  insert and remove are exercised).  Hash-map iteration order, which is
  unspecified in the source, is fixed to first-occurrence order; every
  claim proved here is insensitive to that order.
* Cryptography, entropy and the UDP socket are external collaborators of
  the core (spec section 1); their outcomes enter the model as explicit
  parameters of the operations that consume them.
-/

/-! # Ad table (`src/advertisement/mod.rs`) -/

namespace Advertisement

/-- `Topic = [u8; 32]`, kept opaque. -/
abbrev Topic := Nat

/-- `AdNode { node_record: Enr, insert_time: Instant }`.  The ENR is opaque
to the ad table (only its equality is consulted), so it is a `Nat` here.
`PartialEq` for `AdNode` in the source compares `node_record` only. -/
structure AdNode where
  node_record : Nat
  insert_time : Nat
deriving DecidableEq, Repr

/-- `AdTopic { topic: Topic, insert_time: Instant }`. -/
structure AdTopic where
  topic : Topic
  insert_time : Nat
deriving DecidableEq, Repr

/-- The `Ads` struct: expiration FIFO, per-topic FIFOs, counters and the
configured limits. -/
structure Ads where
  expirations : List AdTopic
  ads : List (Topic × List AdNode)
  total_ads : Nat
  ad_lifetime : Nat
  max_ads_per_topic : Nat
  max_ads : Nat
deriving DecidableEq, Repr

/-- `Ads::new`: rejects `max_ads_per_topic > max_ads`. -/
def Ads.new (ad_lifetime max_ads_per_topic max_ads : Nat) : Option Ads :=
  if max_ads_per_topic ≤ max_ads then
    some ⟨[], [], 0, ad_lifetime, max_ads_per_topic, max_ads⟩
  else
    none

/-- `HashMap::get` on the per-topic map. -/
def mapGet : List (Topic × List AdNode) → Topic → Option (List AdNode)
  | [], _ => none
  | e :: rest, t => if e.1 = t then some e.2 else mapGet rest t

/-- `HashMap::remove` on the per-topic map. -/
def mapErase : List (Topic × List AdNode) → Topic → List (Topic × List AdNode)
  | [], _ => []
  | e :: rest, t => if e.1 = t then mapErase rest t else e :: mapErase rest t

/-- `HashMap::insert` (replace-or-append) on the per-topic map. -/
def mapSet (m : List (Topic × List AdNode)) (t : Topic) (v : List AdNode) :
    List (Topic × List AdNode) :=
  mapErase m t ++ [(t, v)]

/-- Sum of the lengths of all per-topic FIFOs. -/
def adsSum : List (Topic × List AdNode) → Nat
  | [] => 0
  | e :: rest => e.2.length + adsSum rest

/-- `AdNode::eq` is over `node_record` only, so `VecDeque::contains` in
`Ads::insert` asks whether some queued ad has this ENR. -/
def containsEnr : List AdNode → Nat → Bool
  | [], _ => false
  | n :: rest, e => if n.node_record = e then true else containsEnr rest e

/-- The `take_while` pass of `Ads::remove_expired`: the longest prefix of
the expiration FIFO with `insert_time.elapsed() >= ad_lifetime`. -/
def expiredPrefix (s : Ads) (now : Nat) : List AdTopic :=
  s.expirations.takeWhile (fun ad => decide (s.ad_lifetime ≤ now - ad.insert_time))

/-- The per-topic counts accumulated into the local `map` of
`Ads::remove_expired` (iteration order fixed to first occurrence; the
per-topic updates commute). -/
def groupCounts (l : List AdTopic) : List (Topic × Nat) :=
  (l.map (fun a => a.topic)).dedup.map
    (fun t => (t, ((l.map (fun a => a.topic)).filter (fun x => x == t)).length))

/-- The `map.into_iter().for_each(..)` pass of `Ads::remove_expired`:
for each topic pop `count` ads, drop the topic key when its queue empties,
and subtract from `total_ads`. -/
def dropTopics : Ads → List (Topic × Nat) → Ads
  | s, [] => s
  | s, (t, c) :: rest =>
    let q := ((mapGet s.ads t).getD []).drop c
    let ads' := if q.isEmpty then mapErase s.ads t else mapSet s.ads t q
    dropTopics { s with ads := ads', total_ads := s.total_ads - c } rest

/-- `Ads::remove_expired`.  NOTE (faithful to the source): the expired
entries are counted from `expirations` but never popped from it. -/
def removeExpired (s : Ads) (now : Nat) : Ads :=
  dropTopics s (groupCounts (expiredPrefix s now))

/-- `Ads::insert`.  Returns the new state and `true` for `Ok(())`,
`false` for the duplicate-ad error. -/
def Ads.insert (s : Ads) (node_record : Nat) (topic : Topic) (now : Nat) :
    Ads × Bool :=
  let s1 := removeExpired s now
  let nodes := (mapGet s1.ads topic).getD []
  if containsEnr nodes node_record then
    (s1, false)
  else
    ({ s1 with
        ads := mapSet s1.ads topic (nodes ++ [⟨node_record, now⟩]),
        expirations := s1.expirations ++ [⟨topic, now⟩],
        total_ads := s1.total_ads + 1 }, true)

/-- `Ads::regconfirmation`: errors when the ticket still carries wait time,
otherwise inserts. -/
def Ads.regconfirmation (s : Ads) (node_record : Nat) (topic : Topic)
    (wait_time : Nat) (now : Nat) : Ads × Bool :=
  if 0 < wait_time then (s, false) else s.insert node_record topic now

/-- `Ads::ticket_wait_time` (the release-build behaviour of the
`debug_unreachable!` arms is to return `None`). -/
def Ads.ticketWaitTime (s : Ads) (topic : Topic) (now : Nat) :
    Ads × Option Nat :=
  let s1 := removeExpired s now
  if s1.total_ads < s1.max_ads then
    match mapGet s1.ads topic with
    | some nodes =>
      if nodes.length < s1.max_ads_per_topic then (s1, none)
      else
        match nodes.head? with
        | some ad => (s1, some (s1.ad_lifetime - (now - ad.insert_time)))
        | none => (s1, none)
    | none => (s1, none)
  else
    match s1.expirations.head? with
    | some ad => (s1, some (s1.ad_lifetime - (now - ad.insert_time)))
    | none => (s1, none)

/-- A fresh table from `Ads::new(10, 2, 3)`, used to exhibit the expiry
bug. -/
def c1s0 : Ads := ⟨[], [], 0, 10, 2, 3⟩

/-- A fresh table from `Ads::new(100, 1, 1)` (both caps equal to 1), used
to exhibit that `insert` ignores the caps. -/
def c4s0 : Ads := ⟨[], [], 0, 100, 1, 1⟩

end Advertisement

/-! # IP vote (`src/service/ip_vote.rs`) -/

namespace IpVoteMod

abbrev NodeId := Nat

/-- `SocketAddrV4`. -/
structure SockV4 where
  ip : Nat
  port : Nat
deriving DecidableEq, Repr

/-- `SocketAddrV6`. -/
structure SockV6 where
  ip : Nat
  port : Nat
deriving DecidableEq, Repr

/-- `SocketAddr`. -/
inductive SocketAddr where
  | v4 (s : SockV4)
  | v6 (s : SockV6)
deriving DecidableEq, Repr

/-- The `Address` enum returned by `majority`. -/
inductive Address where
  | reachable (s : SocketAddr)
  | symmetricNATv4 (ip : Nat)
  | symmetricNATv6 (ip : Nat)
deriving DecidableEq, Repr

/-- The `IpVote` struct.  `votes: HashMap<NodeId, (SocketAddr, Instant)>`
is an association list here; the stored `Nat` is the vote's deadline
`now + vote_duration`. -/
structure IpVote where
  votes : List (NodeId × SocketAddr × Nat)
  minimum_threshold : Nat
  vote_duration : Nat
  include_symmetric_nat : Bool
deriving DecidableEq, Repr

/-- `IpVote::new` panics when `minimum_threshold < 2`; the panic is
modelled as `none`. -/
def IpVote.new (minimum_threshold vote_duration : Nat)
    (include_symmetric_nat : Bool) : Option IpVote :=
  if minimum_threshold < 2 then none
  else some ⟨[], minimum_threshold, vote_duration, include_symmetric_nat⟩

/-- `IpVote::insert`: `HashMap::insert` keyed by `NodeId`. -/
def IpVote.insertVote (s : IpVote) (key : NodeId) (socket : SocketAddr)
    (now : Nat) : IpVote :=
  { s with
      votes :=
        s.votes.filter (fun v => !(v.1 == key)) ++
          [(key, socket, now + s.vote_duration)] }

/-- Votes surviving `retain(|_, v| v.1 > instant)`. -/
def liveVotes (s : IpVote) (now : Nat) : List (NodeId × SocketAddr × Nat) :=
  s.votes.filter (fun v => decide (now < v.2.2))

/-- The IPv4 sockets among a vote list (what `ip4_count` tallies). -/
def v4Sockets (l : List (NodeId × SocketAddr × Nat)) : List SockV4 :=
  l.filterMap (fun v =>
    match v.2.1 with
    | .v4 sock => some sock
    | .v6 _ => none)

/-- The IPv6 sockets among a vote list (what `ip6_count` tallies). -/
def v6Sockets (l : List (NodeId × SocketAddr × Nat)) : List SockV6 :=
  l.filterMap (fun v =>
    match v.2.1 with
    | .v4 _ => none
    | .v6 sock => some sock)

/-- Multiplicity of one key in a list: the count the source's hash-map
tally assigns to it. -/
def keyCount {K : Type} [DecidableEq K] (l : List K) (k : K) : Nat :=
  (l.filter (fun x => x == k)).length

/-- The contents of a counting hash map built from `l`: each distinct key
with its multiplicity (iteration order fixed to first occurrence). -/
def countsOf {K : Type} [DecidableEq K] (l : List K) : List (K × Nat) :=
  l.dedup.map (fun k => (k, keyCount l k))

/-- `iter().max_by_key(|(_k, count)| *count)`: like Rust, ties go to the
later element. -/
def maxByCount {K : Type} : List (K × Nat) → Option (K × Nat)
  | [] => none
  | x :: xs =>
    match maxByCount xs with
    | none => some x
    | some y => if y.2 ≥ x.2 then some y else some x

/-- The free function `majority`: filter by the threshold, then take the
key with the maximal count. -/
def majorityKey {K : Type} (counts : List (K × Nat)) (threshold : Nat) :
    Option K :=
  (maxByCount (counts.filter (fun kc => decide (threshold ≤ kc.2)))).map
    (fun kc => kc.1)

/-- `IpVote::majority` for a vote list that has already been filtered for
expiry: the socket-majority pass, then (when enabled and the former found
nothing for either family) the IP-only symmetric-NAT pass. -/
def majorityOfLive (live : List (NodeId × SocketAddr × Nat))
    (threshold : Nat) (include_symmetric_nat : Bool) :
    Option Address × Option Address :=
  let s4 := v4Sockets live
  let s6 := v6Sockets live
  let ip4_majority :=
    (majorityKey (countsOf s4) threshold).map (fun s => Address.reachable (.v4 s))
  let ip6_majority :=
    (majorityKey (countsOf s6) threshold).map (fun s => Address.reachable (.v6 s))
  if ip4_majority.isSome || ip6_majority.isSome then
    (ip4_majority, ip6_majority)
  else if include_symmetric_nat then
    ((majorityKey (countsOf (s4.map (fun s => s.ip))) threshold).map
        Address.symmetricNATv4,
      (majorityKey (countsOf (s6.map (fun s => s.ip))) threshold).map
        Address.symmetricNATv6)
  else
    (none, none)

/-- `IpVote::majority`: expire, then tally. -/
def IpVote.majority (s : IpVote) (now : Nat) :
    Option Address × Option Address :=
  majorityOfLive (liveVotes s now) s.minimum_threshold s.include_symmetric_nat

end IpVoteMod

/-! # K-bucket IP diversity filter (`src/kbucket/filter.rs`) -/

namespace KFilter

/-- Number of permitted nodes in the same /24 subnet per table. -/
def MAX_NODES_PER_SUBNET_TABLE : Nat := 10

/-- Number of permitted nodes in the same /24 subnet per bucket. -/
def MAX_NODES_PER_SUBNET_BUCKET : Nat := 2

/-- An IPv4 address as its four octets. -/
structure Ip4 where
  o0 : Nat
  o1 : Nat
  o2 : Nat
  o3 : Nat
deriving DecidableEq, Repr

/-- The slice of an ENR the filter consults: identity (for the equality
used to skip duplicates) and the optional advertised IPv4 address. -/
structure Enr where
  id : Nat
  ip4 : Option Ip4
deriving DecidableEq, Repr

/-- `octets()[0..3]` comparison: same /24 subnet. -/
def sameSubnet (a b : Ip4) : Bool :=
  a.o0 == b.o0 && a.o1 == b.o1 && a.o2 == b.o2

/-- The loop body of `ip_filter`, carrying the running `count`.  Entries
equal to the candidate are skipped; a same-subnet entry bumps the count;
the `count >= limit` check runs after each non-duplicate entry. -/
def ipFilterGo (v : Enr) (limit : Nat) (ip : Ip4) :
    List Enr → Nat → Bool
  | [], _ => true
  | e :: rest, count =>
    if e = v then ipFilterGo v limit ip rest count
    else
      let count' :=
        match e.ip4 with
        | some oip => if sameSubnet oip ip then count + 1 else count
        | none => count
      if limit ≤ count' then false else ipFilterGo v limit ip rest count'

/-- `ip_filter`: a candidate with no IPv4 address is unrestricted. -/
def ip_filter (v : Enr) (other_vals : List Enr) (limit : Nat) : Bool :=
  match v.ip4 with
  | some ip => ipFilterGo v limit ip other_vals 0
  | none => true

/-- `IpTableFilter::filter`. -/
def ipTableFilter (v : Enr) (other_vals : List Enr) : Bool :=
  ip_filter v other_vals MAX_NODES_PER_SUBNET_TABLE

/-- `IpBucketFilter::filter`. -/
def ipBucketFilter (v : Enr) (other_vals : List Enr) : Bool :=
  ip_filter v other_vals MAX_NODES_PER_SUBNET_BUCKET

end KFilter

/-! # NODES response splitting (`src/service.rs`, `send_nodes_response`) -/

namespace NodesResponse

/-- `MAX_PACKET_SIZE` (from `packet.rs`, re-exported constant). -/
def MAX_PACKET_SIZE : Nat := 1280

/-- The per-frame budget used by the loop: `MAX_PACKET_SIZE - 104`. -/
def FRAME_LIMIT : Nat := MAX_PACKET_SIZE - 104

/-- One NODES response frame: request id, `total` field, and the ENR
sizes packed into it.  An ENR is consulted only through
`rlp::encode(&enr).len()`, so a node is represented by its encoded size
(a `Nat`). -/
structure Frame where
  id : Nat
  total : Nat
  nodes : List Nat
deriving DecidableEq, Repr

/-- The greedy packing loop of `send_nodes_response`, producing the
`to_send_nodes: Vec<Vec<Enr>>`.  `cur` is the frame at `rpc_index`,
`total_size` its running byte count. -/
def splitGo : List Nat → List Nat → Nat → List (List Nat)
  | [], cur, _ => [cur]
  | e :: rest, cur, total_size =>
    if e + total_size < FRAME_LIMIT then
      splitGo rest (cur ++ [e]) (total_size + e)
    else
      cur :: splitGo rest [e] e

/-- `to_send_nodes` after the loop (the loop starts from one pushed empty
frame, `total_size = 0`). -/
def split (nodes_to_send : List Nat) : List (List Nat) :=
  splitGo nodes_to_send [] 0

/-- The final value of the `rpc_index` counter: incremented exactly when
an ENR does not fit the open frame. -/
def rpcIndexGo : List Nat → Nat → Nat
  | [], _ => 0
  | e :: rest, total_size =>
    if e + total_size < FRAME_LIMIT then
      rpcIndexGo rest (total_size + e)
    else
      1 + rpcIndexGo rest e

/-- `send_nodes_response`: an empty list sends the prepared empty response
(`total = 1`, the same `rpc_id`); otherwise one response per inner vector,
each stamped with `total = rpc_index + 1` and the cloned `rpc_id`. -/
def sendNodesResponse (rpc_id : Nat) (nodes_to_send : List Nat) :
    List Frame :=
  if nodes_to_send.isEmpty then
    [⟨rpc_id, 1, []⟩]
  else
    (split nodes_to_send).map
      (fun nodes => ⟨rpc_id, rpcIndexGo nodes_to_send 0 + 1, nodes⟩)

end NodesResponse

/-! # REGTOPIC ticket wait-time handling (`src/service.rs`,
`handle_rpc_request`, `RequestBody::RegisterTopic` arm) -/

namespace Regtopic

/-- `WAIT_TIME_MARGINAL = Duration::from_secs(5)` (time unit: seconds). -/
def WAIT_TIME_MARGINAL : Nat := 5

/-- The fields of a decoded `Ticket` the timing check reads. -/
structure Ticket where
  req_time : Nat
  wait_time : Nat
deriving DecidableEq, Repr

/-- Outcome of decrypting and decoding the `ticket` bytes of a REGTOPIC
request.  Decryption (AES-GCM under the local ticket key) and RLP decoding
are external collaborators, so their result is an input here.  `decodedNone`
is the `Ok(None)` result of `Ticket::decode`. -/
inductive TicketBytes where
  | absent
  | undecryptable
  | decodedNone
  | decoded (t : Ticket)
deriving DecidableEq, Repr

/-- The errors this path can produce. -/
inductive RegError where
  | invalidWaitTime
  | invalidTicket
deriving DecidableEq, Repr

/-- What the REGTOPIC arm does after the sender checks have passed:
either bans the peer (with the optional timed ban deadline
`ban_duration.map(|v| now + v)`) and fails the request, or proceeds to
the `Ads::insert` attempt and TICKET response. -/
inductive RegOutcome where
  | ban (e : RegError) (timeout : Option Nat)
  | register
deriving DecidableEq, Repr

/-- The ticket-validation segment of the `RegisterTopic` arm
(`service.rs` lines 1444-1482): an empty ticket skips validation; an
undecryptable ticket bans; a decoded ticket bans unless
`wait_time <= elapsed(req_time) < wait_time + WAIT_TIME_MARGINAL`. -/
def handleRegtopicTicket (now : Nat) (ban_duration : Option Nat)
    (ticket : TicketBytes) : RegOutcome :=
  let ban_timeout := ban_duration.map (fun v => now + v)
  match ticket with
  | .absent => .register
  | .undecryptable => .ban .invalidTicket ban_timeout
  | .decodedNone => .register
  | .decoded t =>
    let waited_time := now - t.req_time
    if waited_time < t.wait_time ∨ t.wait_time + WAIT_TIME_MARGINAL ≤ waited_time then
      .ban .invalidWaitTime ban_timeout
    else
      .register

end Regtopic

/-! # Session handler (`src/handler/mod.rs`)

The handler submodules `active_requests.rs`, `request_call.rs` and
`sessions.rs` are declared in `handler/mod.rs` but their files are not part
of the sources; those pieces are modelled from the spec (sections 2 C2, 3)
and from how `handler/mod.rs` uses them, and are marked as such below. -/

namespace HandlerMod

abbrev SocketAddr := Nat
abbrev NodeId := Nat
abbrev MessageNonce := Nat
abbrev RequestId := Nat

/-- Request bodies are opaque to the request-tracking logic. -/
abbrev RequestBody := Nat

/-- `NodeAddress = (SocketAddr, NodeId)`. -/
structure NodeAddress where
  socket_addr : SocketAddr
  node_id : NodeId
deriving DecidableEq, Repr

/-- The slice of an ENR the handler logic consults: node id and sequence
number. -/
structure Enr where
  node_id : NodeId
  seq : Nat
deriving DecidableEq, Repr

/-- `NodeContact`: an ENR or a raw `(SocketAddr, PublicKey, NodeId)`
triple; the public key only feeds the (external) crypto. -/
structure NodeContact where
  socket_addr : SocketAddr
  node_id : NodeId
  enr : Option Enr
deriving DecidableEq, Repr

def NodeContact.node_address (c : NodeContact) : NodeAddress :=
  ⟨c.socket_addr, c.node_id⟩

/-- Packet payloads, by kind.  Payload bytes are opaque. -/
inductive PacketBody where
  | random (src_id : NodeId)
  | whoareyou (id_nonce : Nat) (enr_seq : Nat)
  | authMessage (data : Nat)
  | message (data : Nat)
deriving DecidableEq, Repr

/-- A wire packet: header message nonce plus payload. -/
structure Packet where
  nonce : MessageNonce
  body : PacketBody
deriving DecidableEq, Repr

/-- The `RequestError` variants exercised by the claims. -/
inductive RequestError where
  | timeout
  | invalidRemotePacket
  | selfRequest
deriving DecidableEq, Repr

/-- `HandlerReqId`: only `External` failures are surfaced to callers. -/
inductive HandlerReqId where
  | internal (id : RequestId)
  | external (id : RequestId)
deriving DecidableEq, Repr

/-- Modelled from the spec: `request_call.rs` is not among the sources.
Spec section 3: a `RequestCall` holds contact, packet-as-sent, request id,
body, retry count, `initiating_session` flag, `handshake_sent` flag and
`remaining_responses`. -/
structure RequestCall where
  contact : NodeContact
  packet : Packet
  id : HandlerReqId
  body : RequestBody
  retries : Nat
  initiating_session : Bool
  handshake_sent : Bool
  remaining_responses : Option Nat
deriving DecidableEq, Repr

/-- An outstanding WHOAREYOU: challenge data (id-nonce, enr-seq) plus the
remote ENR if known. -/
structure Challenge where
  id_nonce : Nat
  enr_seq : Nat
  remote_enr : Option Enr
deriving DecidableEq, Repr

/-- Modelled from the spec: `sessions.rs` is not among the sources.  Spec
section 3: AEAD keying material, a message nonce counter, and an optional
`awaiting_enr` request id.  The keys themselves are opaque. -/
structure Session where
  keys : Nat
  counter : Nat
  awaiting_enr : Option RequestId
deriving DecidableEq, Repr

/-- AEAD encryption of an outgoing request under a session.  The crypto
itself is an external collaborator; the model only tracks that the nonce
counter advances and some message packet is produced. -/
def Session.encryptMessage (s : Session) (body : RequestBody) :
    Session × Packet :=
  ({ s with counter := s.counter + 1 }, ⟨s.counter + 1, .message body⟩)

/-- Pointwise update of an optional map. -/
def upd {α β : Type} [DecidableEq α] (m : α → Option β) (k : α)
    (v : Option β) : α → Option β :=
  fun x => if x = k then v else m x

/-- Modelled from the spec: `active_requests.rs` is not among the sources.
Spec section 2, C2: a map request ↔ node-address ↔ retry/timeout state;
`handler/mod.rs` looks requests up by `NodeAddress` and by the message
nonce of the packet as sent, so the model keeps both mappings. -/
structure ActiveRequests where
  by_address : NodeAddress → Option RequestCall
  by_nonce : MessageNonce → Option NodeAddress

/-- Insert a request call, registering its packet nonce. -/
def ActiveRequests.insert (ar : ActiveRequests) (na : NodeAddress)
    (call : RequestCall) : ActiveRequests :=
  ⟨upd ar.by_address na (some call), upd ar.by_nonce call.packet.nonce (some na)⟩

/-- Remove by node address, dropping the nonce mapping of the stored
call. -/
def ActiveRequests.remove (ar : ActiveRequests) (na : NodeAddress) :
    ActiveRequests :=
  match ar.by_address na with
  | some call =>
    ⟨upd ar.by_address na none, upd ar.by_nonce call.packet.nonce none⟩
  | none => ar

/-- `remove_by_nonce`: both mappings are removed when the request is
found. -/
def ActiveRequests.removeByNonce (ar : ActiveRequests)
    (nonce : MessageNonce) :
    Option (NodeAddress × RequestCall) × ActiveRequests :=
  match ar.by_nonce nonce with
  | none => (none, ar)
  | some na =>
    match ar.by_address na with
    | none => (none, ⟨ar.by_address, upd ar.by_nonce nonce none⟩)
    | some call =>
      (some (na, call), ⟨upd ar.by_address na none, upd ar.by_nonce nonce none⟩)

inductive ConnectionDirection where
  | incoming
  | outgoing
deriving DecidableEq, Repr

/-- The `HandlerOut` events the claims observe. -/
inductive HandlerOut where
  | whoAreYou (na : NodeAddress) (nonce : MessageNonce)
  | requestFailed (id : RequestId) (e : RequestError)
  | established (enr : Enr) (socket : SocketAddr) (dir : ConnectionDirection)
deriving DecidableEq, Repr

/-- A queued request waiting behind an active request or challenge. -/
structure PendingRequest where
  contact : NodeContact
  request_id : HandlerReqId
  body : RequestBody
deriving DecidableEq, Repr

/-- The handler state consulted by the claims, plus logs of the packets
handed to the send task and of the events sent to the service. -/
structure Handler where
  request_retries : Nat
  node_id : NodeId
  active_requests : ActiveRequests
  pending_requests : NodeAddress → List PendingRequest
  filter_expected_responses : SocketAddr → Nat
  active_challenges : NodeAddress → Option Challenge
  sessions : NodeAddress → Option Session
  listen_sockets : List SocketAddr
  relay_cache : NodeId → Option NodeAddress
  sent : List (NodeAddress × Packet)
  out_events : List HandlerOut

/-- `add_expected_response`: `expected_responses[socket] += 1`. -/
def bump (m : SocketAddr → Nat) (k : SocketAddr) : SocketAddr → Nat :=
  fun x => if x = k then m x + 1 else m x

/-- `remove_expected_response`: saturating decrement (entries at zero are
dropped, which coincides with the absent-is-zero reading). -/
def unbump (m : SocketAddr → Nat) (k : SocketAddr) : SocketAddr → Nat :=
  fun x => if x = k then m x - 1 else m x

/-- `Handler::send`: hand a packet to the send task (logged). -/
def Handler.push_sent (h : Handler) (na : NodeAddress) (p : Packet) : Handler :=
  { h with sent := h.sent ++ [(na, p)] }

/-- Emit a `HandlerOut` event to the service (logged). -/
def Handler.emit (h : Handler) (ev : HandlerOut) : Handler :=
  { h with out_events := h.out_events ++ [ev] }

/-- `Handler::fail_session`: optionally drop the session, then drain the
pending-request queue reporting the error on every external id. -/
def failSession (h : Handler) (na : NodeAddress) (error : RequestError)
    (remove_session : Bool) : Handler :=
  let h1 :=
    if remove_session then { h with sessions := upd h.sessions na none } else h
  let evs :=
    (h1.pending_requests na).filterMap (fun p =>
      match p.request_id with
      | .internal _ => none
      | .external id => some (HandlerOut.requestFailed id error))
  { h1 with
      pending_requests := fun x => if x = na then [] else h1.pending_requests x,
      out_events := h1.out_events ++ evs }

/-- `Handler::fail_request`: report external failures, pop the peer from
the hole-punch relay cache, then `fail_session`.  Note this function does
not touch `filter_expected_responses`. -/
def failRequest (h : Handler) (call : RequestCall) (error : RequestError)
    (remove_session : Bool) : Handler :=
  let h1 :=
    match call.id with
    | .internal _ => h
    | .external id => h.emit (.requestFailed id error)
  let na := call.contact.node_address
  let h2 := { h1 with relay_cache := upd h1.relay_cache na.node_id none }
  failSession h2 na error remove_session

/-- `Handler::send_request`.  `entropy_nonce` stands for the entropy used
by `Packet::new_random` when no session exists; session encryption is the
abstract `Session.encryptMessage`.  Returns the `Result`'s error part. -/
def sendRequest (h : Handler) (contact : NodeContact)
    (request_id : HandlerReqId) (body : RequestBody)
    (entropy_nonce : MessageNonce) : Handler × Option RequestError :=
  let na := contact.node_address
  if h.listen_sockets.contains na.socket_addr then
    (h, some .selfRequest)
  else if (h.active_requests.by_address na).isSome
      || (h.active_challenges na).isSome then
    ({ h with
        pending_requests := fun x =>
          if x = na then h.pending_requests na ++ [⟨contact, request_id, body⟩]
          else h.pending_requests x }, none)
  else
    let step :=
      match h.sessions na with
      | some s =>
        let (s', p) := s.encryptMessage body
        ({ h with sessions := upd h.sessions na (some s') }, p, false)
      | none => (h, (⟨entropy_nonce, .random h.node_id⟩ : Packet), true)
    let h1 := step.1
    let packet := step.2.1
    let initiating_session := step.2.2
    let call : RequestCall :=
      ⟨contact, packet, request_id, body, 0, initiating_session, false, none⟩
    let h2 :=
      { h1 with
          filter_expected_responses :=
            bump h1.filter_expected_responses na.socket_addr }
    let h3 := h2.push_sent na packet
    ({ h3 with active_requests := h3.active_requests.insert na call }, none)

/-- `Handler::handle_request_timeout`, called with the request call the
expired delay-map entry delivered.  On the final timeout: with a cached
relay the hole punch starts and the call is reinserted (the RelayInit
notification itself is out of the claims' scope); with none the expected
response is removed and the call failed with `Timeout`.  Otherwise the
stored packet is re-sent and the retry counter incremented. -/
def handleRequestTimeout (h : Handler) (node_address : NodeAddress)
    (call : RequestCall) : Handler :=
  if h.request_retries ≤ call.retries then
    match h.relay_cache call.contact.node_id with
    | some _relay =>
      { h with
          relay_cache := upd h.relay_cache call.contact.node_id none,
          active_requests := h.active_requests.insert node_address call }
    | none =>
      let h1 :=
        { h with
            filter_expected_responses :=
              unbump h.filter_expected_responses node_address.socket_addr }
      failRequest h1 call .timeout false
  else
    let h1 := h.push_sent node_address call.packet
    { h1 with
        active_requests :=
          h1.active_requests.insert node_address
            { call with retries := call.retries + 1 } }

/-- A request-timeout tick: the delay map expires the entry for `na`,
removing it and handing it to `handle_request_timeout`. -/
def timeoutEvent (h : Handler) (na : NodeAddress) : Handler :=
  match h.active_requests.by_address na with
  | some call =>
    handleRequestTimeout { h with active_requests := h.active_requests.remove na }
      na call
  | none => h

/-- `Handler::send_challenge` (`HandlerIn::WhoAreYou`): refuse when a
challenge is already active — note the absence of any `active_requests`
check — otherwise send a WHOAREYOU built from the triggering packet's
nonce and a fresh `id_nonce` (entropy parameter), bump the expected
responses, and record the challenge. -/
def sendChallenge (h : Handler) (na : NodeAddress)
    (message_nonce : MessageNonce) (id_nonce : Nat)
    (remote_enr : Option Enr) : Handler :=
  if (h.active_challenges na).isSome then h
  else
    let enr_seq := (remote_enr.map (fun e => e.seq)).getD 0
    let packet : Packet := ⟨message_nonce, .whoareyou id_nonce enr_seq⟩
    let h1 :=
      { h with
          filter_expected_responses :=
            bump h.filter_expected_responses na.socket_addr }
    let h2 := h1.push_sent na packet
    { h2 with
        active_challenges :=
          upd h2.active_challenges na (some ⟨id_nonce, enr_seq, remote_enr⟩) }

/-- `Handler::new_session`: update in place or insert. -/
def newSession (h : Handler) (na : NodeAddress) (s : Session) : Handler :=
  { h with sessions := upd h.sessions na (some s) }

/-- `Handler::handle_challenge` (receiving a WHOAREYOU).  `crypto` is the
outcome of the external `Session::encrypt_with_header` (auth packet and
fresh session keys, or failure); `enr_req_id` is the random id drawn for
the internal FINDNODE when the contact's ENR is unknown. -/
def handleChallenge (h : Handler) (src_address : SocketAddr)
    (request_nonce : MessageNonce) (_enr_seq : Nat)
    (crypto : Option (Packet × Session)) (enr_req_id : RequestId) : Handler :=
  match h.active_requests.removeByNonce request_nonce with
  | (none, ar') => { h with active_requests := ar' }
  | (some (na, call), ar') =>
    if na.socket_addr ≠ src_address then
      { h with active_requests := ar'.insert na call }
    else if call.packet.nonce ≠ request_nonce then
      { h with active_requests := ar' }
    else if call.handshake_sent then
      failRequest { h with active_requests := ar' } call .invalidRemotePacket true
    else
      match crypto with
      | none =>
        failRequest { h with active_requests := ar' } call .invalidRemotePacket
          true
      | some (auth_packet, session) =>
        let h1 := { h with active_requests := ar' }
        match call.contact.enr with
        | some enr =>
          let dir :=
            if call.initiating_session then ConnectionDirection.outgoing
            else ConnectionDirection.incoming
          let call' :=
            { call with
                packet := auth_packet, handshake_sent := true,
                initiating_session := false }
          let h2 := { h1 with active_requests := h1.active_requests.insert na call' }
          let h3 := h2.push_sent na auth_packet
          let h4 := h3.emit (.established enr na.socket_addr dir)
          newSession h4 na session
        | none =>
          let call' := { call with packet := auth_packet, handshake_sent := true }
          let h2 := { h1 with active_requests := h1.active_requests.insert na call' }
          let h3 := h2.push_sent na auth_packet
          let session' := { session with awaiting_enr := some enr_req_id }
          let h4 := (sendRequest h3 call.contact (.internal enr_req_id) 0 0).1
          newSession h4 na session'

/-- A handler as `Handler::spawn` leaves it (with
`config.request_retries = 3` as in scenario S3 and no configured listen
sockets), before any traffic. -/
def initHandler (node_id : NodeId) : Handler where
  request_retries := 3
  node_id := node_id
  active_requests := ⟨fun _ => none, fun _ => none⟩
  pending_requests := fun _ => []
  filter_expected_responses := fun _ => 0
  active_challenges := fun _ => none
  sessions := fun _ => none
  listen_sockets := []
  relay_cache := fun _ => none
  sent := []
  out_events := []

/-- A contact with no ENR at socket 5, node id 7. -/
def contactRaw : NodeContact := ⟨5, 7, none⟩

/-- The same peer, with its ENR known. -/
def contactEnr : NodeContact := ⟨5, 7, some ⟨7, 1⟩⟩

/-- A handler that has just sent one external request (id 11) to
`contactRaw` — a random packet with nonce 100 since no session exists. -/
def hReq : Handler := (sendRequest (initHandler 9) contactRaw (.external 11) 0 100).1

/-- Same, but the contact's ENR is known (for the handshake path). -/
def hReqE : Handler := (sendRequest (initHandler 9) contactEnr (.external 11) 0 100).1

/-- `hReqE` after a matching WHOAREYOU was answered: the handshake was
sent (auth packet nonce 200) and `handshake_sent` is set on the call. -/
def hHs : Handler :=
  handleChallenge hReqE 5 100 0 (some (⟨200, .authMessage 0⟩, ⟨0, 0, none⟩)) 55

/-- `hReq` after three request timeouts: the stored packet has been
re-sent three times and the retry counter stands at 3. -/
def hT3 : Handler :=
  timeoutEvent (timeoutEvent (timeoutEvent hReq ⟨5, 7⟩) ⟨5, 7⟩) ⟨5, 7⟩

end HandlerMod

/-!
# Theorems

Each claim `Cn` of the specification review has exactly one theorem below,
marked in its doc comment; auxiliary lemmas are shared.
-/

namespace Advertisement

/-- `mapGet` after `mapSet` at the same key returns the stored value. -/
theorem mapGet_mapSet (m : List (Topic × List AdNode)) (t : Topic)
    (v : List AdNode) : mapGet (mapSet m t v) t = some v := by
  induction m with
  | nil => simp [mapSet, mapErase, mapGet]
  | cons e rest ih =>
    by_cases he : e.1 = t
    · simpa [mapSet, mapErase, he] using ih
    · simpa [mapSet, mapErase, mapGet, he] using ih

/-- C1: the claim that after every completed `Ads` operation the length of
`expirations` equals the sum of the per-topic FIFO lengths equals
`total_ads` is the intended invariant (the source's `debug_unreachable!`
messages treat its violation as impossible), but `remove_expired` breaks
it: starting from `Ads::new(10, 2, 3)`, inserting one ad at time 0 and
running `remove_expired` at time 10 leaves the counted-but-not-popped
entry in `expirations` (length 1) while the per-topic sum and `total_ads`
are 0. -/
theorem c1_expiration_fifo_not_drained :
    Ads.new 10 2 3 = some c1s0 ∧
    (c1s0.insert 1 7 0).2 = true ∧
    (c1s0.insert 1 7 0).1.expirations.length = 1 ∧
    adsSum (c1s0.insert 1 7 0).1.ads = 1 ∧
    (c1s0.insert 1 7 0).1.total_ads = 1 ∧
    (removeExpired (c1s0.insert 1 7 0).1 10).expirations.length = 1 ∧
    adsSum (removeExpired (c1s0.insert 1 7 0).1 10).ads = 0 ∧
    (removeExpired (c1s0.insert 1 7 0).1 10).total_ads = 0 := by
  decide

/-- C4 counterexample: with both caps set to 1 (a table produced by
`Ads::new(100, 1, 1)`), a second distinct ad for the same topic is
accepted by `insert` — the claim says it must be refused once
`per_topic_count` or `total_ads` reaches the cap, but `insert` performs no
cap check at all. -/
theorem c4_insert_ignores_caps_counterexample :
    Ads.new 100 1 1 = some c4s0 ∧
    (c4s0.insert 1 7 0).2 = true ∧
    ((c4s0.insert 1 7 0).1.insert 2 7 0).2 = true ∧
    mapGet ((c4s0.insert 1 7 0).1.insert 2 7 0).1.ads 7 =
      some [⟨1, 0⟩, ⟨2, 0⟩] ∧
    ((c4s0.insert 1 7 0).1.insert 2 7 0).1.total_ads = 2 ∧
    c4s0.max_ads_per_topic = 1 ∧ c4s0.max_ads = 1 := by
  decide

/-- C4 (amended): `Ads::insert` first runs the eager expiry pass; if an ad
with the same ENR is already queued for the topic it returns an error and
changes nothing further; otherwise it always appends the ad — to the
topic FIFO, the expiration FIFO and `total_ads` — with no check of
`max_ads_per_topic` or `max_ads` (the caps are enforced only indirectly,
through `ticket_wait_time` and `regconfirmation`). -/
theorem c4_insert_amended (s : Ads) (enr : Nat) (topic : Topic) (now : Nat) :
    (containsEnr ((mapGet (removeExpired s now).ads topic).getD []) enr = true →
      s.insert enr topic now = (removeExpired s now, false)) ∧
    (containsEnr ((mapGet (removeExpired s now).ads topic).getD []) enr = false →
      (s.insert enr topic now).2 = true ∧
      mapGet (s.insert enr topic now).1.ads topic =
        some (((mapGet (removeExpired s now).ads topic).getD []) ++ [⟨enr, now⟩]) ∧
      (s.insert enr topic now).1.expirations =
        (removeExpired s now).expirations ++ [⟨topic, now⟩] ∧
      (s.insert enr topic now).1.total_ads =
        (removeExpired s now).total_ads + 1) := by
  constructor
  · intro hdup
    simp [Ads.insert, hdup]
  · intro hnodup
    simp [Ads.insert, hnodup, mapGet_mapSet]

/-- C4 witness: inserting into a fresh table with caps (1, 1) appends. -/
theorem c4_insert_amended_witness :
    containsEnr ((mapGet (removeExpired c4s0 0).ads 3).getD []) 5 = false ∧
    ((c4s0.insert 5 3 0).2 = true ∧
      mapGet (c4s0.insert 5 3 0).1.ads 3 =
        some (((mapGet (removeExpired c4s0 0).ads 3).getD []) ++ [⟨5, 0⟩]) ∧
      (c4s0.insert 5 3 0).1.expirations =
        (removeExpired c4s0 0).expirations ++ [⟨3, 0⟩] ∧
      (c4s0.insert 5 3 0).1.total_ads = (removeExpired c4s0 0).total_ads + 1) :=
  ⟨by decide, (c4_insert_amended c4s0 5 3 0).2 (by decide)⟩

end Advertisement

namespace Regtopic

/-- C8: a REGTOPIC whose ticket decodes to `(req_time, wait_time)` is
banned (with the `ban_duration`-timed deadline) and failed with
`InvalidWaitTime` — before any ad insertion — exactly when the elapsed
time since `req_time` is below `wait_time` or at least
`wait_time + WAIT_TIME_MARGINAL`; inside `[wait_time, wait_time + 5 s)`
the request proceeds to registration. -/
theorem c8_regtopic_ticket_timing (now : Nat) (ban_duration : Option Nat)
    (t : Ticket) :
    ((now - t.req_time < t.wait_time ∨
        t.wait_time + WAIT_TIME_MARGINAL ≤ now - t.req_time) →
      handleRegtopicTicket now ban_duration (.decoded t) =
        .ban .invalidWaitTime (ban_duration.map (fun v => now + v))) ∧
    (t.wait_time ≤ now - t.req_time →
      now - t.req_time < t.wait_time + WAIT_TIME_MARGINAL →
      handleRegtopicTicket now ban_duration (.decoded t) = .register) := by
  constructor
  · intro hbad
    simp only [handleRegtopicTicket]
    rw [if_pos hbad]
  · intro hle hlt
    have hok : ¬(now - t.req_time < t.wait_time ∨
        t.wait_time + WAIT_TIME_MARGINAL ≤ now - t.req_time) := by omega
    simp only [handleRegtopicTicket]
    rw [if_neg hok]

/-- C8 witness: with `req_time = 0`, `wait_time = 3`, `ban_duration = 3`:
arriving at time 10 (margin exceeded) bans with deadline 13; arriving at
time 4 (inside the window) registers. -/
theorem c8_regtopic_ticket_timing_witness :
    handleRegtopicTicket 10 (some 3) (.decoded ⟨0, 3⟩) =
      .ban .invalidWaitTime (some 13) ∧
    handleRegtopicTicket 4 (some 3) (.decoded ⟨0, 3⟩) = .register :=
  ⟨(c8_regtopic_ticket_timing 10 (some 3) ⟨0, 3⟩).1 (by decide),
    (c8_regtopic_ticket_timing 4 (some 3) ⟨0, 3⟩).2 (by decide) (by decide)⟩

end Regtopic

namespace KFilter

/-- Removing the entries equal to the candidate from the iterated values
never changes the loop's verdict: such entries are skipped without
touching the count or the limit check. -/
theorem ipFilterGo_filter_self (v : Enr) (limit : Nat) (ip : Ip4)
    (l : List Enr) :
    ∀ count, ipFilterGo v limit ip (l.filter (fun e => !(e == v))) count =
      ipFilterGo v limit ip l count := by
  induction l with
  | nil => intro count; rfl
  | cons e rest ih =>
    intro count
    by_cases hev : e = v
    · subst hev
      simp [ipFilterGo, ih]
    · have hbe : (e == v) = false := by
        simp [hev]
      simp only [List.filter_cons, hbe, Bool.not_false, if_true]
      simp only [ipFilterGo, if_neg hev]
      split
      · rfl
      · exact ih _

/-- C10: a candidate ENR with no IPv4 address passes `ip_filter` (and so
`IpTableFilter` and `IpBucketFilter`) whatever the existing contents; and
entries equal to the candidate are excluded from the /24 count, so the
verdict on a list containing the candidate itself equals the verdict
without it — re-inserting a present value is never rejected on account of
its own copies. -/
theorem c10_ip_filter_no_ip_and_self_exclusion (v : Enr) (l : List Enr)
    (limit : Nat) :
    (v.ip4 = none →
      ip_filter v l limit = true ∧
      ipTableFilter v l = true ∧
      ipBucketFilter v l = true) ∧
    ip_filter v (v :: l) limit = ip_filter v l limit ∧
    ip_filter v (l.filter (fun e => !(e == v))) limit = ip_filter v l limit := by
  refine ⟨fun hnone => ?_, ?_, ?_⟩
  · simp [ip_filter, ipTableFilter, ipBucketFilter, hnone]
  · cases hip : v.ip4 with
    | none => simp [ip_filter, hip]
    | some ip => simp [ip_filter, hip, ipFilterGo]
  · cases hip : v.ip4 with
    | none => simp [ip_filter, hip]
    | some ip => simp [ip_filter, hip, ipFilterGo_filter_self]

/-- C10 witness: a candidate with no IPv4 address passes both filters over
a non-empty table even with limit 0, and the self-exclusion equations hold
on a concrete list containing the candidate. -/
theorem c10_ip_filter_witness :
    ((⟨0, none⟩ : Enr).ip4 = none) ∧
    (ip_filter ⟨0, none⟩ [⟨1, some ⟨1, 2, 3, 4⟩⟩] 0 = true ∧
      ipTableFilter ⟨0, none⟩ [⟨1, some ⟨1, 2, 3, 4⟩⟩] = true ∧
      ipBucketFilter ⟨0, none⟩ [⟨1, some ⟨1, 2, 3, 4⟩⟩] = true) :=
  ⟨by decide,
    (c10_ip_filter_no_ip_and_self_exclusion ⟨0, none⟩
      [⟨1, some ⟨1, 2, 3, 4⟩⟩] 0).1 (by decide)⟩

end KFilter

namespace NodesResponse

/-- Every frame the greedy loop closes keeps its byte sum below the
limit, provided every single ENR fits and the open frame's running sum
does. -/
theorem splitGo_sum_lt (sizes : List Nat)
    (hall : ∀ e ∈ sizes, e < FRAME_LIMIT) :
    ∀ cur total_size, cur.sum = total_size → total_size < FRAME_LIMIT →
      ∀ fr ∈ splitGo sizes cur total_size, fr.sum < FRAME_LIMIT := by
  induction sizes with
  | nil =>
    intro cur total_size hsum hlt fr hfr
    simp only [splitGo, List.mem_singleton] at hfr
    simpa [hfr, hsum] using hlt
  | cons e rest ih =>
    intro cur total_size hsum hlt fr hfr
    have he : e < FRAME_LIMIT := hall e (by simp)
    have hrest : ∀ x ∈ rest, x < FRAME_LIMIT := fun x hx =>
      hall x (by simp [hx])
    simp only [splitGo] at hfr
    by_cases hc : e + total_size < FRAME_LIMIT
    · rw [if_pos hc] at hfr
      exact ih hrest (cur ++ [e]) (total_size + e)
        (by simp [hsum]) (by omega) fr hfr
    · rw [if_neg hc] at hfr
      rcases List.mem_cons.mp hfr with hfr | hfr
      · simpa [hfr, hsum] using hlt
      · exact ih hrest [e] e (by simp) he fr hfr

/-- The loop's final `rpc_index` counter is one less than the number of
inner vectors it produces. -/
theorem splitGo_length (sizes : List Nat) :
    ∀ cur total_size,
      (splitGo sizes cur total_size).length = rpcIndexGo sizes total_size + 1 := by
  induction sizes with
  | nil => intro cur total_size; rfl
  | cons e rest ih =>
    intro cur total_size
    simp only [splitGo, rpcIndexGo]
    split
    · exact ih (cur ++ [e]) (total_size + e)
    · simp only [List.length_cons, ih [e] e]
      omega

/-- C7: `send_nodes_response`, for ENRs within the 300-byte ENR size
bound, produces frames whose RLP-size sums stay below
`MAX_PACKET_SIZE - 104`, all carrying the request id, and each stamped
with a `total` equal to the number of frames sent. -/
theorem c7_send_nodes_response_frames (rpc_id : Nat) (sizes : List Nat)
    (hsz : ∀ e ∈ sizes, e ≤ 300) :
    ∀ fr ∈ sendNodesResponse rpc_id sizes,
      fr.nodes.sum < MAX_PACKET_SIZE - 104 ∧
      fr.id = rpc_id ∧
      fr.total = (sendNodesResponse rpc_id sizes).length := by
  intro fr hfr
  have hlim : MAX_PACKET_SIZE - 104 = FRAME_LIMIT := rfl
  have hall : ∀ e ∈ sizes, e < FRAME_LIMIT := by
    intro e he
    have := hsz e he
    have : FRAME_LIMIT = 1176 := by decide
    omega
  rw [hlim]
  by_cases hemp : sizes.isEmpty = true
  · simp only [sendNodesResponse] at hfr
    rw [if_pos hemp, List.mem_singleton] at hfr
    subst hfr
    refine ⟨(by decide : ([] : List Nat).sum < FRAME_LIMIT), rfl, ?_⟩
    simp only [sendNodesResponse]
    rw [if_pos hemp]
    rfl
  · simp only [sendNodesResponse] at hfr
    rw [if_neg hemp, List.mem_map] at hfr
    obtain ⟨nodes, hmem, heq⟩ := hfr
    subst heq
    refine ⟨?_, rfl, ?_⟩
    · exact splitGo_sum_lt sizes hall [] 0 rfl (by decide) nodes hmem
    · simp only [sendNodesResponse]
      rw [if_neg hemp, List.length_map, split, splitGo_length]

/-- C7 witness: four ENRs of 300 bytes each split into a 900-byte frame
and a 300-byte frame, both stamped `total = 2` and id 11. -/
theorem c7_send_nodes_response_witness :
    (∀ e ∈ [300, 300, 300, 300], e ≤ 300) ∧
    ∀ fr ∈ sendNodesResponse 11 [300, 300, 300, 300],
      fr.nodes.sum < MAX_PACKET_SIZE - 104 ∧
      fr.id = 11 ∧
      fr.total = (sendNodesResponse 11 [300, 300, 300, 300]).length :=
  ⟨by decide, c7_send_nodes_response_frames 11 [300, 300, 300, 300] (by decide)⟩

end NodesResponse

namespace IpVoteMod

/-- `maxByCount` only returns `none` on the empty list. -/
theorem maxByCount_eq_none {K : Type} {l : List (K × Nat)}
    (h : maxByCount l = none) : l = [] := by
  cases l with
  | nil => rfl
  | cons x xs =>
    exfalso
    cases hm : maxByCount xs with
    | none =>
      simp only [maxByCount, hm] at h
      cases h
    | some y =>
      simp only [maxByCount, hm] at h
      by_cases hy : y.2 ≥ x.2
      · rw [if_pos hy] at h; cases h
      · rw [if_neg hy] at h; cases h

/-- `max_by_key` soundness: the result is an element of the list and its
count bounds every count in the list. -/
theorem maxByCount_spec {K : Type} (l : List (K × Nat)) (kc : K × Nat)
    (h : maxByCount l = some kc) : kc ∈ l ∧ ∀ x ∈ l, x.2 ≤ kc.2 := by
  induction l generalizing kc with
  | nil => cases h
  | cons x xs ih =>
    cases hm : maxByCount xs with
    | none =>
      simp only [maxByCount, hm] at h
      injection h with h
      subst h
      have hnil : xs = [] := maxByCount_eq_none hm
      subst hnil
      exact ⟨List.mem_singleton.mpr rfl, by
        intro z hz
        rw [List.mem_singleton.mp hz]⟩
    | some y =>
      simp only [maxByCount, hm] at h
      obtain ⟨hy_mem, hy_bound⟩ := ih y hm
      by_cases hy : y.2 ≥ x.2
      · rw [if_pos hy] at h
        injection h with h
        subst h
        refine ⟨List.mem_cons_of_mem x hy_mem, ?_⟩
        intro z hz
        rcases List.mem_cons.mp hz with hz | hz
        · rw [hz]; exact hy
        · exact hy_bound z hz
      · rw [if_neg hy] at h
        injection h with h
        subst h
        refine ⟨List.mem_cons_self x xs, ?_⟩
        intro z hz
        rcases List.mem_cons.mp hz with hz | hz
        · rw [hz]
        · have := hy_bound z hz
          omega

/-- `majority` soundness: a returned key has an in-list count at least
the threshold and maximal among all listed counts. -/
theorem majorityKey_spec {K : Type} (counts : List (K × Nat))
    (threshold : Nat) (k : K)
    (h : majorityKey counts threshold = some k) :
    ∃ c, (k, c) ∈ counts ∧ threshold ≤ c ∧ ∀ kc ∈ counts, kc.2 ≤ c := by
  unfold majorityKey at h
  cases hmx : maxByCount (counts.filter (fun kc => decide (threshold ≤ kc.2))) with
  | none => rw [hmx] at h; cases h
  | some kc =>
    rw [hmx] at h
    injection h with h
    obtain ⟨hmem, hbound⟩ := maxByCount_spec _ kc hmx
    obtain ⟨hmem', hdec⟩ := List.mem_filter.mp hmem
    refine ⟨kc.2, ?_, by simpa using hdec, ?_⟩
    · rw [← h]; simpa using hmem'
    · intro kc' hkc'
      by_cases hθ : threshold ≤ kc'.2
      · exact hbound kc' (List.mem_filter.mpr ⟨hkc', by simpa using hθ⟩)
      · have h1 : threshold ≤ kc.2 := by simpa using hdec
        omega

/-- Every entry of a counting map carries the key's multiplicity. -/
theorem countsOf_mem_val {K : Type} [DecidableEq K] (l : List K)
    (p : K × Nat) (h : p ∈ countsOf l) : p.2 = keyCount l p.1 := by
  obtain ⟨k, _, heq⟩ := List.mem_map.mp h
  rw [← heq]

/-- Every key occurring in `l` occurs in the counting map with its
multiplicity. -/
theorem countsOf_mem_of_mem {K : Type} [DecidableEq K] (l : List K) (k : K)
    (h : k ∈ l) : (k, keyCount l k) ∈ countsOf l :=
  List.mem_map_of_mem _ (List.mem_dedup.mpr h)

/-- A key that does not occur has multiplicity zero. -/
theorem keyCount_eq_zero {K : Type} [DecidableEq K] (l : List K) (k : K)
    (h : k ∉ l) : keyCount l k = 0 := by
  rw [keyCount, List.length_eq_zero, List.filter_eq_nil_iff]
  intro x hx
  simp only [beq_iff_eq]
  intro hk
  exact h (hk ▸ hx)

/-- Soundness of the threshold-majority over the counting map of a raw
key list. -/
theorem majorityKey_countsOf_sound {K : Type} [DecidableEq K] (l : List K)
    (threshold : Nat) (k : K)
    (h : majorityKey (countsOf l) threshold = some k) :
    threshold ≤ keyCount l k ∧ ∀ x, keyCount l x ≤ keyCount l k := by
  obtain ⟨c, hmem, hθ, hbound⟩ := majorityKey_spec _ _ _ h
  have hc : c = keyCount l k := countsOf_mem_val l (k, c) hmem
  subst hc
  refine ⟨hθ, ?_⟩
  intro x
  by_cases hx : x ∈ l
  · exact hbound (x, keyCount l x) (countsOf_mem_of_mem l x hx)
  · rw [keyCount_eq_zero l x hx]
    exact Nat.zero_le _

/-- When no key reaches the threshold, the majority is `none`. -/
theorem majorityKey_countsOf_none {K : Type} [DecidableEq K] (l : List K)
    (threshold : Nat) (h : ∀ k, keyCount l k < threshold) :
    majorityKey (countsOf l) threshold = none := by
  unfold majorityKey
  have hfil : (countsOf l).filter (fun kc => decide (threshold ≤ kc.2)) = [] := by
    rw [List.filter_eq_nil_iff]
    intro kc hkc
    have := countsOf_mem_val l kc hkc
    have := h kc.1
    simp only [decide_eq_true_eq]
    omega
  rw [hfil]
  rfl

end IpVoteMod

namespace IpVoteMod

/-- C6: `IpVote::majority` returns, per address family, only candidates
whose count among the non-expired votes meets `minimum_threshold` and is
maximal in that family (a `Reachable` socket measured by socket count, a
`SymmetricNAT` address by IP-only count); when no candidate of a family
meets the threshold, that family's slot is `None`; and `IpVote::new`
rejects thresholds below 2. -/
theorem c6_ip_vote_majority (s : IpVote) (now : Nat) :
    (∀ a, (s.majority now).1 = some a →
      (∃ sock, a = Address.reachable (.v4 sock) ∧
        s.minimum_threshold ≤ keyCount (v4Sockets (liveVotes s now)) sock ∧
        ∀ x, keyCount (v4Sockets (liveVotes s now)) x ≤
          keyCount (v4Sockets (liveVotes s now)) sock) ∨
      (∃ ip, a = Address.symmetricNATv4 ip ∧
        s.minimum_threshold ≤
          keyCount ((v4Sockets (liveVotes s now)).map (fun sock => sock.ip)) ip ∧
        ∀ x, keyCount ((v4Sockets (liveVotes s now)).map (fun sock => sock.ip)) x ≤
          keyCount ((v4Sockets (liveVotes s now)).map (fun sock => sock.ip)) ip)) ∧
    (∀ a, (s.majority now).2 = some a →
      (∃ sock, a = Address.reachable (.v6 sock) ∧
        s.minimum_threshold ≤ keyCount (v6Sockets (liveVotes s now)) sock ∧
        ∀ x, keyCount (v6Sockets (liveVotes s now)) x ≤
          keyCount (v6Sockets (liveVotes s now)) sock) ∨
      (∃ ip, a = Address.symmetricNATv6 ip ∧
        s.minimum_threshold ≤
          keyCount ((v6Sockets (liveVotes s now)).map (fun sock => sock.ip)) ip ∧
        ∀ x, keyCount ((v6Sockets (liveVotes s now)).map (fun sock => sock.ip)) x ≤
          keyCount ((v6Sockets (liveVotes s now)).map (fun sock => sock.ip)) ip)) ∧
    ((∀ k, keyCount (v4Sockets (liveVotes s now)) k < s.minimum_threshold) →
      (∀ ip, keyCount ((v4Sockets (liveVotes s now)).map (fun sock => sock.ip)) ip <
        s.minimum_threshold) →
      (s.majority now).1 = none) ∧
    ((∀ k, keyCount (v6Sockets (liveVotes s now)) k < s.minimum_threshold) →
      (∀ ip, keyCount ((v6Sockets (liveVotes s now)).map (fun sock => sock.ip)) ip <
        s.minimum_threshold) →
      (s.majority now).2 = none) ∧
    (∀ threshold d b, (threshold < 2 → IpVote.new threshold d b = none) ∧
      (2 ≤ threshold → IpVote.new threshold d b = some ⟨[], threshold, d, b⟩)) := by
  refine ⟨?_, ?_, ?_, ?_, ?_⟩
  · intro a ha
    cases h4 : majorityKey (countsOf (v4Sockets (liveVotes s now)))
        s.minimum_threshold with
    | some k =>
      simp [IpVote.majority, majorityOfLive, h4] at ha
      exact Or.inl ⟨k, ha.symm, (majorityKey_countsOf_sound _ _ _ h4).1,
        (majorityKey_countsOf_sound _ _ _ h4).2⟩
    | none =>
      cases h6 : majorityKey (countsOf (v6Sockets (liveVotes s now)))
          s.minimum_threshold with
      | some k6 => simp [IpVote.majority, majorityOfLive, h4, h6] at ha
      | none =>
        cases hsym : s.include_symmetric_nat with
        | false => simp [IpVote.majority, majorityOfLive, h4, h6, hsym] at ha
        | true =>
          cases hn4 : majorityKey
              (countsOf ((v4Sockets (liveVotes s now)).map (fun sock => sock.ip)))
              s.minimum_threshold with
          | some ip =>
            simp [IpVote.majority, majorityOfLive, h4, h6, hsym, hn4] at ha
            exact Or.inr ⟨ip, ha.symm, (majorityKey_countsOf_sound _ _ _ hn4).1,
              (majorityKey_countsOf_sound _ _ _ hn4).2⟩
          | none => simp [IpVote.majority, majorityOfLive, h4, h6, hsym, hn4] at ha
  · intro a ha
    cases h6 : majorityKey (countsOf (v6Sockets (liveVotes s now)))
        s.minimum_threshold with
    | some k =>
      simp [IpVote.majority, majorityOfLive, h6] at ha
      exact Or.inl ⟨k, ha.symm, (majorityKey_countsOf_sound _ _ _ h6).1,
        (majorityKey_countsOf_sound _ _ _ h6).2⟩
    | none =>
      cases h4 : majorityKey (countsOf (v4Sockets (liveVotes s now)))
          s.minimum_threshold with
      | some k4 => simp [IpVote.majority, majorityOfLive, h4, h6] at ha
      | none =>
        cases hsym : s.include_symmetric_nat with
        | false => simp [IpVote.majority, majorityOfLive, h4, h6, hsym] at ha
        | true =>
          cases hn6 : majorityKey
              (countsOf ((v6Sockets (liveVotes s now)).map (fun sock => sock.ip)))
              s.minimum_threshold with
          | some ip =>
            simp [IpVote.majority, majorityOfLive, h4, h6, hsym, hn6] at ha
            exact Or.inr ⟨ip, ha.symm, (majorityKey_countsOf_sound _ _ _ hn6).1,
              (majorityKey_countsOf_sound _ _ _ hn6).2⟩
          | none => simp [IpVote.majority, majorityOfLive, h4, h6, hsym, hn6] at ha
  · intro hsock hip
    have h4 := majorityKey_countsOf_none _ s.minimum_threshold hsock
    have hn4 := majorityKey_countsOf_none _ s.minimum_threshold hip
    cases h6 : majorityKey (countsOf (v6Sockets (liveVotes s now)))
        s.minimum_threshold with
    | some k6 => simp [IpVote.majority, majorityOfLive, h4, h6]
    | none =>
      cases hsym : s.include_symmetric_nat with
      | false => simp [IpVote.majority, majorityOfLive, h4, h6, hsym]
      | true => simp [IpVote.majority, majorityOfLive, h4, h6, hsym, hn4]
  · intro hsock hip
    have h6 := majorityKey_countsOf_none _ s.minimum_threshold hsock
    have hn6 := majorityKey_countsOf_none _ s.minimum_threshold hip
    cases h4 : majorityKey (countsOf (v4Sockets (liveVotes s now)))
        s.minimum_threshold with
    | some k4 => simp [IpVote.majority, majorityOfLive, h4, h6]
    | none =>
      cases hsym : s.include_symmetric_nat with
      | false => simp [IpVote.majority, majorityOfLive, h4, h6, hsym]
      | true => simp [IpVote.majority, majorityOfLive, h4, h6, hsym, hn6]
  · intro threshold d b
    constructor
    · intro hlt
      simp [IpVote.new, hlt]
    · intro hge
      have : ¬ threshold < 2 := by omega
      simp [IpVote.new, this]

/-- C6 witness: two live votes for the IPv4 socket (1, 30303) with
threshold 2 yield a v4 majority, and the soundness theorem applies to
it. -/
theorem c6_ip_vote_majority_witness :
    ((IpVote.majority ⟨[(1, .v4 ⟨1, 30303⟩, 100), (2, .v4 ⟨1, 30303⟩, 100)],
        2, 10, false⟩ 0).1 =
      some (Address.reachable (.v4 ⟨1, 30303⟩))) ∧
    ((∃ sock, Address.reachable (.v4 ⟨1, 30303⟩) = Address.reachable (.v4 sock) ∧
      (2 : Nat) ≤ keyCount (v4Sockets (liveVotes ⟨[(1, .v4 ⟨1, 30303⟩, 100),
        (2, .v4 ⟨1, 30303⟩, 100)], 2, 10, false⟩ 0)) sock ∧
      ∀ x, keyCount (v4Sockets (liveVotes ⟨[(1, .v4 ⟨1, 30303⟩, 100),
          (2, .v4 ⟨1, 30303⟩, 100)], 2, 10, false⟩ 0)) x ≤
        keyCount (v4Sockets (liveVotes ⟨[(1, .v4 ⟨1, 30303⟩, 100),
          (2, .v4 ⟨1, 30303⟩, 100)], 2, 10, false⟩ 0)) sock) ∨
    (∃ ip, Address.reachable (.v4 ⟨1, 30303⟩) = Address.symmetricNATv4 ip ∧
      (2 : Nat) ≤ keyCount ((v4Sockets (liveVotes ⟨[(1, .v4 ⟨1, 30303⟩, 100),
        (2, .v4 ⟨1, 30303⟩, 100)], 2, 10, false⟩ 0)).map (fun sock => sock.ip)) ip ∧
      ∀ x, keyCount ((v4Sockets (liveVotes ⟨[(1, .v4 ⟨1, 30303⟩, 100),
          (2, .v4 ⟨1, 30303⟩, 100)], 2, 10, false⟩ 0)).map (fun sock => sock.ip)) x ≤
        keyCount ((v4Sockets (liveVotes ⟨[(1, .v4 ⟨1, 30303⟩, 100),
          (2, .v4 ⟨1, 30303⟩, 100)], 2, 10, false⟩ 0)).map (fun sock => sock.ip)) ip)) :=
  ⟨by decide,
    (c6_ip_vote_majority ⟨[(1, .v4 ⟨1, 30303⟩, 100), (2, .v4 ⟨1, 30303⟩, 100)],
        2, 10, false⟩ 0).1 (Address.reachable (.v4 ⟨1, 30303⟩)) (by decide)⟩

end IpVoteMod

namespace HandlerMod

/-- Looking an updated map up at the updated key. -/
theorem upd_same {α β : Type} [DecidableEq α] (m : α → Option β) (k : α)
    (v : Option β) : upd m k v k = v := by
  simp [upd]

/-- Looking an updated map up elsewhere. -/
theorem upd_ne {α β : Type} [DecidableEq α] (m : α → Option β) (k x : α)
    (v : Option β) (h : x ≠ k) : upd m k v x = m x := by
  simp [upd, h]

/-- Removing a request (by nonce) and reinserting the same call restores
the request map, provided the two mappings were consistent. -/
theorem ActiveRequests.reinsert (ar : ActiveRequests) (na : NodeAddress)
    (call : RequestCall) (nonce : MessageNonce)
    (h1 : ar.by_nonce nonce = some na)
    (h2 : ar.by_address na = some call)
    (h3 : call.packet.nonce = nonce) :
    ActiveRequests.insert
      ⟨upd ar.by_address na none, upd ar.by_nonce nonce none⟩ na call = ar := by
  cases ar with
  | mk ba bn =>
    simp only [ActiveRequests.insert]
    congr 1
    · funext x
      by_cases hx : x = na
      · subst hx
        rw [upd_same]
        exact h2.symm
      · rw [upd_ne _ _ _ _ hx, upd_ne _ _ _ _ hx]
    · funext x
      rw [h3]
      by_cases hx : x = nonce
      · subst hx
        rw [upd_same]
        exact h1.symm
      · rw [upd_ne _ _ _ _ hx, upd_ne _ _ _ _ hx]

/-- C9: a WHOAREYOU whose nonce references an outstanding request but
whose source socket differs from the recorded destination is dropped with
the handler state unchanged — the request stays active for the original
address, sessions, the packet log and the event log are untouched. -/
theorem c9_whoareyou_source_mismatch (h : Handler) (src : SocketAddr)
    (nonce : MessageNonce) (enr_seq : Nat) (crypto : Option (Packet × Session))
    (rid : RequestId) (na : NodeAddress) (call : RequestCall)
    (h1 : h.active_requests.by_nonce nonce = some na)
    (h2 : h.active_requests.by_address na = some call)
    (h3 : call.packet.nonce = nonce)
    (h4 : na.socket_addr ≠ src) :
    handleChallenge h src nonce enr_seq crypto rid = h := by
  unfold handleChallenge
  have hrm : h.active_requests.removeByNonce nonce =
      (some (na, call),
        ⟨upd h.active_requests.by_address na none,
          upd h.active_requests.by_nonce nonce none⟩) := by
    unfold ActiveRequests.removeByNonce
    rw [h1]
    dsimp only
    rw [h2]
  rw [hrm]
  simp only [if_pos h4]
  rw [ActiveRequests.reinsert h.active_requests na call nonce h1 h2 h3]

/-- C9 witness: after sending one request to socket 5 (nonce 100), a
WHOAREYOU for nonce 100 arriving from socket 6 leaves the handler
unchanged. -/
theorem c9_whoareyou_source_mismatch_witness :
    handleChallenge hReq 6 100 0 none 0 = hReq :=
  c9_whoareyou_source_mismatch hReq 6 100 0 none 0 ⟨5, 7⟩
    ⟨contactRaw, ⟨100, .random 9⟩, .external 11, 0, 0, true, false, none⟩
    (by decide) (by decide) (by decide) (by decide)

end HandlerMod

namespace HandlerMod

/-- `fail_session` never touches the expected-responses counter. -/
theorem failSession_filter (h : Handler) (na : NodeAddress)
    (e : RequestError) (rs : Bool) :
    (failSession h na e rs).filter_expected_responses =
      h.filter_expected_responses := by
  cases rs <;> rfl

/-- `fail_request` never touches the expected-responses counter: the only
decrements happen at its call sites. -/
theorem failRequest_filter (h : Handler) (call : RequestCall)
    (e : RequestError) (rs : Bool) :
    (failRequest h call e rs).filter_expected_responses =
      h.filter_expected_responses := by
  unfold failRequest
  cases hid : call.id <;> cases rs <;>
    simp only [failSession_filter, Handler.emit]

/-- C2 counterexample: a request (external id 11) fails with
`InvalidRemotePacket` — a WHOAREYOU arriving after the handshake was
already sent — yet the expected-responses count for its destination
socket 5 stays at 1 instead of being decremented to 0; the request is
gone from the active set, so no later path can decrement it either. -/
theorem c2_fail_without_decrement_counterexample :
    (handleChallenge hHs 5 200 0 none 56).out_events =
      [.established ⟨7, 1⟩ 5 .outgoing, .requestFailed 11 .invalidRemotePacket] ∧
    (handleChallenge hHs 5 200 0 none 56).filter_expected_responses 5 = 1 ∧
    ((handleChallenge hHs 5 200 0 none 56).active_requests.by_address
      ⟨5, 7⟩).isNone = true := by
  decide

/-- C2 (amended): the final-timeout failure path decrements the
destination's expected-responses count exactly once (and no other
socket's), but `fail_request` itself never decrements, so the
`InvalidRemotePacket` failure raised by a WHOAREYOU that arrives after
the handshake was sent leaves the counter untouched. -/
theorem c2_expected_responses_amended (h : Handler) (na : NodeAddress)
    (call : RequestCall) :
    (h.active_requests.by_address na = some call →
      h.request_retries ≤ call.retries →
      h.relay_cache call.contact.node_id = none →
      ((timeoutEvent h na).filter_expected_responses na.socket_addr =
          h.filter_expected_responses na.socket_addr - 1 ∧
        ∀ sock, sock ≠ na.socket_addr →
          (timeoutEvent h na).filter_expected_responses sock =
            h.filter_expected_responses sock)) ∧
    (∀ src enr_seq crypto rid,
      h.active_requests.by_nonce call.packet.nonce = some na →
      h.active_requests.by_address na = some call →
      na.socket_addr = src →
      call.handshake_sent = true →
      (handleChallenge h src call.packet.nonce enr_seq crypto
          rid).filter_expected_responses = h.filter_expected_responses) := by
  constructor
  · intro h2 hret hrel
    unfold timeoutEvent
    rw [h2]
    simp only [handleRequestTimeout]
    rw [if_pos hret]
    rw [hrel]
    simp only [failRequest_filter]
    constructor
    · dsimp only [unbump]
      rw [if_pos rfl]
    · intro sock hsock
      dsimp only [unbump]
      rw [if_neg hsock]
  · intro src enr_seq crypto rid h1 h2 hsrc hhs
    unfold handleChallenge
    have hrm : h.active_requests.removeByNonce call.packet.nonce =
        (some (na, call),
          ⟨upd h.active_requests.by_address na none,
            upd h.active_requests.by_nonce call.packet.nonce none⟩) := by
      unfold ActiveRequests.removeByNonce
      rw [h1]
      dsimp only
      rw [h2]
    rw [hrm]
    dsimp only
    rw [if_neg (fun hne => hne hsrc)]
    rw [if_neg (fun hne => hne rfl)]
    rw [if_pos hhs]
    rw [failRequest_filter]

/-- C2 witness: both amended branches at concrete states — the fourth
timeout of the request in `hT3` decrements socket 5 from 1 to 0, and the
post-handshake WHOAREYOU against `hHs` leaves the counter map intact. -/
theorem c2_expected_responses_amended_witness :
    ((timeoutEvent hT3 ⟨5, 7⟩).filter_expected_responses 5 =
        hT3.filter_expected_responses 5 - 1 ∧
      ∀ sock, sock ≠ (5 : SocketAddr) →
        (timeoutEvent hT3 ⟨5, 7⟩).filter_expected_responses sock =
          hT3.filter_expected_responses sock) ∧
    (handleChallenge hHs 5 200 0 none 56).filter_expected_responses =
      hHs.filter_expected_responses :=
  ⟨(c2_expected_responses_amended hT3 ⟨5, 7⟩
      ⟨contactRaw, ⟨100, .random 9⟩, .external 11, 0, 3, true, false, none⟩).1
      (by decide) (by decide) (by decide),
    (c2_expected_responses_amended hHs ⟨5, 7⟩
      ⟨contactEnr, ⟨200, .authMessage 0⟩, .external 11, 0, 0, false, true, none⟩).2
      5 0 none 56 (by decide) (by decide) (by decide) (by decide)⟩

end HandlerMod

namespace HandlerMod

/-- C3 counterexample: starting fresh, `send_request` (no session, so a
random packet) puts a RequestCall in `active_requests` for (5, 7); a
subsequent `send_challenge` for the same address — triggered by an
undecryptable inbound message — checks only `active_challenges` and
installs a Challenge, so both coexist, violating the claimed mutual
exclusion. -/
theorem c3_request_and_challenge_coexist_counterexample :
    ((sendChallenge hReq ⟨5, 7⟩ 100 42 none).active_requests.by_address
      ⟨5, 7⟩).isSome = true ∧
    ((sendChallenge hReq ⟨5, 7⟩ 100 42 none).active_challenges
      ⟨5, 7⟩).isSome = true := by
  decide

/-- C3 (amended): `send_request` never creates a second entry when either
an active request or an active challenge exists for the address — the
request goes to the pending queue — and `send_challenge` is a no-op when
a challenge is already active; but `send_challenge` does not consult
`active_requests`, so an active RequestCall and an active Challenge for
the same NodeAddress can coexist. -/
theorem c3_head_of_line_amended (h : Handler) :
    (∀ contact rid body nonce,
      h.listen_sockets.contains contact.node_address.socket_addr = false →
      ((h.active_requests.by_address contact.node_address).isSome ||
        (h.active_challenges contact.node_address).isSome) = true →
      (sendRequest h contact rid body nonce).2 = none ∧
      (sendRequest h contact rid body nonce).1.active_requests.by_address =
        h.active_requests.by_address ∧
      (sendRequest h contact rid body nonce).1.active_challenges =
        h.active_challenges ∧
      (sendRequest h contact rid body nonce).1.pending_requests
          contact.node_address =
        h.pending_requests contact.node_address ++ [⟨contact, rid, body⟩]) ∧
    (∀ na message_nonce id_nonce remote_enr,
      (h.active_challenges na).isSome = true →
      sendChallenge h na message_nonce id_nonce remote_enr = h) := by
  constructor
  · intro contact rid body nonce hlisten hcond
    simp only [sendRequest]
    rw [if_neg (by rw [hlisten]; exact Bool.false_ne_true)]
    rw [if_pos hcond]
    refine ⟨rfl, rfl, rfl, ?_⟩
    dsimp only
    rw [if_pos rfl]
  · intro na message_nonce id_nonce remote_enr hch
    simp only [sendChallenge]
    rw [if_pos hch]

/-- C3 witness: against `hReq` (active request for (5, 7), no challenge),
a queued second request and the no-op repeated challenge, at concrete
inputs. -/
theorem c3_head_of_line_amended_witness :
    ((sendRequest hReq contactRaw (.external 12) 0 101).2 = none ∧
      (sendRequest hReq contactRaw (.external 12) 0 101).1.active_requests.by_address =
        hReq.active_requests.by_address ∧
      (sendRequest hReq contactRaw (.external 12) 0 101).1.active_challenges =
        hReq.active_challenges ∧
      (sendRequest hReq contactRaw (.external 12) 0 101).1.pending_requests
          contactRaw.node_address =
        hReq.pending_requests contactRaw.node_address ++
          [⟨contactRaw, .external 12, 0⟩]) ∧
    sendChallenge (sendChallenge hReq ⟨5, 7⟩ 100 42 none) ⟨5, 7⟩ 100 43 none =
      sendChallenge hReq ⟨5, 7⟩ 100 42 none :=
  ⟨(c3_head_of_line_amended hReq).1 contactRaw (.external 12) 0 101
      (by decide) (by decide),
    (c3_head_of_line_amended (sendChallenge hReq ⟨5, 7⟩ 100 42 none)).2
      ⟨5, 7⟩ 100 43 none (by decide)⟩

/-- C5: from a fresh handler (`request_retries = 3`) with no session, no
cached hole-punch relay and no listen socket clash, an external request
is sent as a random packet and then re-sent on each of the first three
timeouts; the fourth timeout fails it: altogether exactly 4 sends of the
identical stored packet, exactly one `RequestFailed(id, Timeout)` event,
the request gone from the active set, and the destination's
expected-responses credit back at 0. -/
theorem c5_four_sends_then_timeout (nid : NodeId) (contact : NodeContact)
    (rid : RequestId) (body : RequestBody) (nonce : MessageNonce) :
    (timeoutEvent (timeoutEvent (timeoutEvent (timeoutEvent
        (sendRequest (initHandler nid) contact (.external rid) body nonce).1
        contact.node_address) contact.node_address) contact.node_address)
        contact.node_address).sent =
      [(contact.node_address, ⟨nonce, .random nid⟩),
        (contact.node_address, ⟨nonce, .random nid⟩),
        (contact.node_address, ⟨nonce, .random nid⟩),
        (contact.node_address, ⟨nonce, .random nid⟩)] ∧
    (timeoutEvent (timeoutEvent (timeoutEvent (timeoutEvent
        (sendRequest (initHandler nid) contact (.external rid) body nonce).1
        contact.node_address) contact.node_address) contact.node_address)
        contact.node_address).out_events =
      [.requestFailed rid .timeout] ∧
    (timeoutEvent (timeoutEvent (timeoutEvent (timeoutEvent
        (sendRequest (initHandler nid) contact (.external rid) body nonce).1
        contact.node_address) contact.node_address) contact.node_address)
        contact.node_address).active_requests.by_address contact.node_address =
      none ∧
    (timeoutEvent (timeoutEvent (timeoutEvent (timeoutEvent
        (sendRequest (initHandler nid) contact (.external rid) body nonce).1
        contact.node_address) contact.node_address) contact.node_address)
        contact.node_address).filter_expected_responses
      contact.node_address.socket_addr = 0 := by
  simp [sendRequest, timeoutEvent, handleRequestTimeout, failRequest,
    failSession, ActiveRequests.insert, ActiveRequests.remove, initHandler,
    Handler.push_sent, Handler.emit, upd, bump, unbump]

end HandlerMod
